import Mathlib

/-!
Verification of the tsp pipeline execution engine of TSDuck against its
natural-language specification.

The development shallowly embeds the C++ sources:
  * src/tstools/tspPluginExecutor.cpp  (window hand-off ring: passPackets,
    waitWork, setAbort, processPendingRestart, restart)
  * src/tstools/tspInputExecutor.cpp   (input production: initAllBuffers,
    getBitrate, receiveNullPackets, receiveAndValidate, receiveAndStuff,
    the main input loop)

Machine integers (size_t, uint32_t) are modelled as Nat; the C++ code only
ever subtracts under an asserted bound, which the theorems carry as
hypotheses.  Stages are indexed by `Fin (n+1)` in ring order: index 0 is the
input stage, `Fin.last n` the output stage, and the ring successor of `i`
(C++ `ringNext`) is `i + 1` with `Fin` wrap-around, matching the ring built
by tsp (input, processors in order, output, back to input).
-/

namespace Tsp

/-- Per-stage shared state guarded by the global mutex: the window
`(_pkt_first, _pkt_cnt)`, the `_input_end` and `_bitrate` forwarded values,
and the `_tsp_aborting` flag of the TSP superclass. -/
structure Stage where
  pkt_first : Nat
  pkt_cnt : Nat
  input_end : Bool
  bitrate : Nat
  tsp_aborting : Bool
  deriving DecidableEq, Repr

/-- `ts::tsp::PluginExecutor::passPackets(count, bitrate, input_end, aborted)`
called by stage `i` on a pipeline of `n+1` stages with arena capacity `cap`
(`_buffer->count()`).  Returns the new pipeline state and the boolean result
(`!input_end && !aborted`).  The updates mirror the source line by line:
advance own window start mod capacity, decrease own count, increase the ring
successor's count, OR the successor's `_input_end`, overwrite the successor's
`_bitrate`; then, unless this stage is the output stage, pick up the
successor's aborting flag; finally, if aborting, set our own flag. -/
def passPackets (cap : Nat) (s : Fin (n + 1) → Stage) (i : Fin (n + 1))
    (count bitrate : Nat) (input_end aborted : Bool) :
    (Fin (n + 1) → Stage) × Bool :=
  let s1 := Function.update s i
    { s i with pkt_first := ((s i).pkt_first + count) % cap,
               pkt_cnt := (s i).pkt_cnt - count }
  let s2 := Function.update s1 (i + 1)
    { s1 (i + 1) with pkt_cnt := (s1 (i + 1)).pkt_cnt + count,
                      input_end := (s1 (i + 1)).input_end || input_end,
                      bitrate := bitrate }
  let aborted2 := if i = Fin.last n then aborted
                  else (aborted || (s2 (i + 1)).tsp_aborting)
  let s3 := if aborted2 then
              Function.update s2 i { s2 i with tsp_aborting := true }
            else s2
  (s3, !input_end && !aborted2)

/-- `ts::tsp::PluginExecutor::setAbort()`: set our own aborting flag (the
predecessor is merely signalled, its state is unchanged). -/
def setAbort (s : Fin (n + 1) → Stage) (i : Fin (n + 1)) :
    Fin (n + 1) → Stage :=
  Function.update s i { s i with tsp_aborting := true }

/-- The condition of the wait loop in `waitWork`: the loop keeps waiting
while the window is empty, input has not ended, no timeout was declared and
the ring successor is not aborting. -/
def waitGuard (s : Fin (n + 1) → Stage) (i : Fin (n + 1)) (timeout : Bool) :
    Bool :=
  ((s i).pkt_cnt == 0) && !(s i).input_end && !timeout
    && !(s (i + 1)).tsp_aborting

/-- Result record of `waitWork` (its six by-reference out parameters). -/
structure WaitResult where
  pkt_first : Nat
  pkt_cnt : Nat
  bitrate : Nat
  input_end : Bool
  aborted : Bool
  timeout : Bool
  deriving DecidableEq, Repr

/-- `ts::tsp::PluginExecutor::waitWork` output values, computed from the
stage state once the wait loop has exited; `timeout` is the final value of
the loop-local timeout flag (set when the condition wait timed out and the
plugin's timeout handler declined to continue). -/
def waitWork (cap : Nat) (s : Fin (n + 1) → Stage) (i : Fin (n + 1))
    (timeout : Bool) : WaitResult :=
  let c := if timeout then 0 else min (s i).pkt_cnt (cap - (s i).pkt_first)
  { pkt_first := (s i).pkt_first
    pkt_cnt := c
    bitrate := (s i).bitrate
    input_end := (s i).input_end && (c == (s i).pkt_cnt)
    aborted := !(decide (i = Fin.last n)) && (s (i + 1)).tsp_aborting
    timeout := timeout }

/-- Example two-stage pipeline state (input stage 0, output stage 1) used by
concrete witnesses. -/
def exS : Fin 2 → Stage :=
  ![{ pkt_first := 2, pkt_cnt := 3, input_end := false, bitrate := 0,
      tsp_aborting := false },
    { pkt_first := 5, pkt_cnt := 1, input_end := false, bitrate := 0,
      tsp_aborting := false }]

/-- Sum of all stage window counts. -/
def sumCnt (s : Fin (n + 1) → Stage) : Nat :=
  ∑ j, (s j).pkt_cnt

/-- Sum of the window counts of the stages strictly after `j` in ring
order (the stages between `j` and the output, excluded `j`). -/
def tailCnt (s : Fin (n + 1) → Stage) (j : Fin (n + 1)) : Nat :=
  ∑ k ∈ Finset.Ioi j, (s k).pkt_cnt

/-- The window layout invariant: the counts tile the whole arena (they sum
to the capacity: free space is the input stage's window) and each stage's
window starts where the window of its ring successor ends, i.e. all starts
are a common base point shifted by the counts of the later stages. -/
def Inv (cap : Nat) (s : Fin (n + 1) → Stage) : Prop :=
  sumCnt s = cap ∧
    ∃ base, ∀ j, (s j).pkt_first = (base + tailCnt s j) % cap

/-- Slot membership in a stage's window: the window covers `pkt_cnt` slots
starting at `pkt_first`, mod the arena capacity. -/
def inWindow (cap : Nat) (st : Stage) (x : Nat) : Prop :=
  ∃ k, k < st.pkt_cnt ∧ x = (st.pkt_first + k) % cap

instance (cap : Nat) (st : Stage) (x : Nat) : Decidable (inWindow cap st x) :=
  decidable_of_iff (∃ k < st.pkt_cnt, x = (st.pkt_first + k) % cap)
    (by constructor
        · rintro ⟨k, hk, hx⟩; exact ⟨k, hk, hx⟩
        · rintro ⟨k, hk, hx⟩; exact ⟨k, hk, hx⟩)

/-- The pipeline state installed by
`ts::tsp::InputExecutor::initAllBuffers` after the initial load read `r`
packets: the first `r` slots belong to the input stage's successor, the
rest of the arena is the input stage's window starting at `r % cap`, all
other stages have an empty window; every stage gets the initial bitrate
and the `(r == 0)` end/abort flags. -/
def initAllBuffersState (cap r br : Nat) : Fin (n + 1) → Stage := fun j =>
  if j = 0 then
    { pkt_first := r % cap, pkt_cnt := cap - r, input_end := r == 0,
      bitrate := br, tsp_aborting := r == 0 }
  else if j = 1 then
    { pkt_first := 0, pkt_cnt := r, input_end := r == 0,
      bitrate := br, tsp_aborting := r == 0 }
  else
    { pkt_first := 0, pkt_cnt := 0, input_end := r == 0,
      bitrate := br, tsp_aborting := r == 0 }

/-- Pipeline states reachable from the buffer initialization through
`passPackets` hand-offs that respect the asserted precondition
`count <= _pkt_cnt`.  The initial read `r` cannot exceed the capacity
(`initAllBuffers` reads into half of the buffer), there are at least two
stages and the arena is non-empty. -/
inductive Reachable (n cap : Nat) : (Fin (n + 1) → Stage) → Prop
  | init (r br : Nat) (hn : 0 < n) (hcap : 0 < cap) (hr : r ≤ cap) :
      Reachable n cap (initAllBuffersState cap r br)
  | step (s : Fin (n + 1) → Stage) (i : Fin (n + 1))
      (count bitrate : Nat) (ie ab : Bool)
      (hs : Reachable n cap s) (hc : count ≤ (s i).pkt_cnt) :
      Reachable n cap (passPackets cap s i count bitrate ie ab).1

/-! ### Input executor model (src/tstools/tspInputExecutor.cpp)

Transport packets are modelled by their sync byte `b0` plus an opaque
payload tag that lets theorems track the order of real packets; packet
slot metadata by its input-stuffing flag.  The pluggable input unit is
modelled as the list of packets it still has to deliver: `receive(max)`
returns the first `min max remaining` of them, which is the behavior of
the input units in the claims (yield a fixed sequence, then end).  The
PCR/DTS analyzers (class `ts::PCRAnalyzer`, outside the embedded
sources) are abstracted: feeding them is dropped and `getBitrate` takes
their validity/value outputs as parameters. -/
structure Pkt where
  b0 : Nat
  tag : Nat
  deriving DecidableEq, Repr

/-- `ts::NullPacket`: a synthetic null packet (valid sync byte 0x47). -/
def NullPacket : Pkt := { b0 := 0x47, tag := 0 }

/-- `ts::TSPacket::hasValidSync()`: sync byte 0x47 at offset 0. -/
def hasValidSync (p : Pkt) : Bool := p.b0 == 0x47

structure Meta where
  input_stuffing : Bool
  deriving DecidableEq, Repr

/-- `TSPacketMetadata::reset()`. -/
def Meta.reset : Meta := { input_stuffing := false }

/-- The packet arena with its parallel metadata array, as a total map from
slot index to slot contents. -/
abbrev Buf := Nat → (Pkt × Meta)

def writeSlot (buf : Buf) (i : Nat) (p : Pkt) (m : Meta) : Buf :=
  fun j => if j = i then (p, m) else buf j

/-- Write `count` null packets flagged `setInputStuffing(true)` at
consecutive slots starting at `index`. -/
def writeNulls (buf : Buf) (index count : Nat) : Buf :=
  match count with
  | 0 => buf
  | k + 1 =>
      writeNulls (writeSlot buf index NullPacket { input_stuffing := true })
        (index + 1) k

/-- Reset the metadata of `count` consecutive slots (packet bytes kept). -/
def resetMetaRange (buf : Buf) (index count : Nat) : Buf :=
  match count with
  | 0 => buf
  | k + 1 =>
      resetMetaRange (writeSlot buf index (buf index).1 Meta.reset)
        (index + 1) k

/-- Write the received packets, each with freshly reset metadata, at
consecutive slots starting at `index`. -/
def writeList (buf : Buf) (index : Nat) (l : List Pkt) : Buf :=
  match l with
  | [] => buf
  | p :: rest => writeList (writeSlot buf index p Meta.reset) (index + 1) rest

/-- The subset of `ts::tsp::Options` consumed by the input executor. -/
structure InOpts where
  bitrate : Nat
  instuff_nullpkt : Nat
  instuff_inpkt : Nat
  instuff_start : Nat
  instuff_stop : Nat
  max_input_pkt : Nat
  init_bitrate_adj : Nat
  bitrate_adj : Nat
  deriving DecidableEq, Repr

/-- Mutable fields of `ts::tsp::InputExecutor` used by the production
path, plus the remaining output of the pluggable input unit and the
`pluginPackets`/`nonPluginPackets` counters of the TSP superclass. -/
structure InState where
  in_sync_lost : Bool
  instuff_start_remain : Nat
  instuff_stop_remain : Nat
  instuff_nullpkt_remain : Nat
  instuff_inpkt_remain : Nat
  stream : List Pkt
  plugin_pkts : Nat
  nonplugin_pkts : Nat
  deriving DecidableEq, Repr

/-- `ts::tsp::InputExecutor::receiveNullPackets(index, max_packets)`:
fill `max_packets` slots with null packets marked as input stuffing,
count them as non-plugin packets, return `max_packets`. -/
def receiveNullPackets (buf : Buf) (st : InState) (index max_packets : Nat) :
    Nat × Buf × InState :=
  (max_packets, writeNulls buf index max_packets,
    { st with nonplugin_pkts := st.nonplugin_pkts + max_packets })

/-- Index of the first packet without a valid sync byte (the length of the
list when every packet is valid). -/
def firstBad (l : List Pkt) : Nat := l.findIdx (fun p => !hasValidSync p)

/-- `ts::tsp::InputExecutor::receiveAndValidate(index, max_packets)`:
return 0 while sync is lost; otherwise reset the metadata of the target
slots, let the plugin write up to `max_packets` packets, count and keep
only the prefix of packets with a valid sync byte, and latch
`_in_sync_lost` when an invalid packet is found (the invalid packet and
all later ones of this read are discarded by truncating the count). -/
def receiveAndValidate (buf : Buf) (st : InState) (index max_packets : Nat) :
    Nat × Buf × InState :=
  if st.in_sync_lost then (0, buf, st)
  else
    let buf1 := resetMetaRange buf index max_packets
    let received := st.stream.take max_packets
    let buf2 := writeList buf1 index received
    let good := firstBad received
    (good, buf2,
      { st with stream := st.stream.drop received.length,
                plugin_pkts := st.plugin_pkts + good,
                in_sync_lost := decide (good < received.length) })

/-- The interleaved-stuffing loop of
`ts::tsp::InputExecutor::receiveAndStuff` (the `--add-input-stuffing`
branch): alternately emit pending null packets and read chunks of real
packets, restarting either counter from the configured ratio whenever
both hit zero.  The loop consumes at least one buffer slot per
iteration, so the `fuel` parameter (instantiated with `pkt_remain + 1` at
the call site) never runs out; it only serves to express the loop as
structural recursion.  Returns
`(pkt_done, pkt_from_input, buffer, state)`. -/
def stuffLoop (opts : InOpts) (buf : Buf) (st : InState)
    (index pkt_remain fuel : Nat) : Nat × Nat × Buf × InState :=
  match fuel with
  | 0 => (0, 0, buf, st)
  | fuel + 1 =>
    match receiveNullPackets buf st index
        (min st.instuff_nullpkt_remain pkt_remain) with
    | (nc, buf1, st0) =>
      let st1 := { st0 with
        instuff_nullpkt_remain := st0.instuff_nullpkt_remain - nc }
      let index1 := index + nc
      let remain1 := pkt_remain - nc
      if remain1 = 0 then (nc, 0, buf1, st1)
      else
        let st2 := if st1.instuff_nullpkt_remain = 0 ∧
                      st1.instuff_inpkt_remain = 0
                   then { st1 with instuff_inpkt_remain := opts.instuff_inpkt }
                   else st1
        let max_input := min remain1 st2.instuff_inpkt_remain
        match receiveAndValidate buf1 st2 index1 max_input with
        | (count, buf2, st3x) =>
          let st3 := { st3x with
            instuff_inpkt_remain := st3x.instuff_inpkt_remain - count }
          let st4 := if st3.instuff_nullpkt_remain = 0 ∧
                        st3.instuff_inpkt_remain = 0
                     then { st3 with
                       instuff_nullpkt_remain := opts.instuff_nullpkt }
                     else st3
          if count < max_input then (nc + count, count, buf2, st4)
          else
            match stuffLoop opts buf2 st4 (index1 + count)
                (remain1 - count) fuel with
            | (d, fi, buf3, st5) =>
                (nc + count + d, count + fi, buf3, st5)

/-- `ts::tsp::InputExecutor::receiveAndStuff(index, max_packets)`: emit
pending leading stuffing, then read real packets (interleaved with null
packets when `--add-input-stuffing` is set); return the number of packets
placed in the buffer, forced to 0 when the plugin itself contributed no
packet during this call. -/
def receiveAndStuff (opts : InOpts) (buf : Buf) (st : InState)
    (index max_packets : Nat) : Nat × Buf × InState :=
  let k0 := min st.instuff_start_remain max_packets
  let buf1 := writeNulls buf index k0
  let st1 := { st with instuff_start_remain := st.instuff_start_remain - k0,
                       nonplugin_pkts := st.nonplugin_pkts + k0 }
  let index1 := index + k0
  let remain1 := max_packets - k0
  if opts.instuff_inpkt = 0 then
    match receiveAndValidate buf1 st1 index1 remain1 with
    | (cnt, buf2, st2) => (if cnt = 0 then 0 else k0 + cnt, buf2, st2)
  else
    match stuffLoop opts buf1 st1 index1 remain1 (remain1 + 1) with
    | (d, fi, buf2, st2) => (if fi = 0 then 0 else k0 + d, buf2, st2)

/-- `ts::tsp::InputExecutor::getBitrate()`: a declared `--bitrate` or a
plugin-provided value wins (rescaled by `(N+M)/M` under interleaved
stuffing, with the 64-bit intermediate and 32-bit `BitRate` narrowing of
the source); otherwise the PCR estimate while DTS estimation has never
been used, otherwise the DTS estimate, latching `_use_dts_analyzer` once
the DTS estimate has become valid.  The analyzer outputs at call time are
passed in; returns the bitrate and the new `_use_dts_analyzer` flag. -/
def getBitrate (opts : InOpts) (pluginRate : Nat) (pcr_valid : Bool)
    (pcr188 : Nat) (dts_valid : Bool) (dts188 : Nat) (use_dts : Bool) :
    Nat × Bool :=
  let bitrate := if 0 < opts.bitrate then opts.bitrate else pluginRate
  if bitrate ≠ 0 then
    if opts.instuff_inpkt = 0 then (bitrate, use_dts)
    else
      (((bitrate * (opts.instuff_nullpkt + opts.instuff_inpkt)) % 2 ^ 64
          / opts.instuff_inpkt) % 2 ^ 32, use_dts)
  else if !use_dts && pcr_valid then (pcr188, use_dts)
  else
    let u := use_dts || dts_valid
    ((if u then dts188 else 0), u)

/-- Loop-carried locals of `ts::tsp::InputExecutor::main` plus the
`_tsp_bitrate` shared field and the `_use_dts_analyzer` flag. -/
structure MainLocals where
  plugin_completed : Bool
  tsp_bitrate : Nat
  due_packet : Nat
  due_time : Nat
  use_dts : Bool
  deriving DecidableEq, Repr

/-- The `do { bitrate_due_packet += init_bitrate_adj; } while
(bitrate_due_packet <= pluginPackets())` bump of the main loop: the
smallest value `due + k*init` (`k >= 1`) exceeding `pkts` (meaningful for
`init > 0`; the C++ loop does not terminate for `init = 0`). -/
def bumpDuePacket (due init pkts : Nat) : Nat :=
  if pkts < due then due + init
  else due + ((pkts - due) / init + 1) * init

/-- Outcome of one iteration of the input main loop: exit on abort from
`waitWork`; exit on timeout after a final
`passPackets(0, _tsp_bitrate, true, false)` (whose arguments are
carried); or continue, carrying the arguments of the iteration's
`passPackets(pkt_read, _tsp_bitrate, input_end, false)` call and the
updated buffer and state.  The loop in `main` continues while
`input_end` is false. -/
inductive MainOut where
  | abortExit
  | timeoutExit (pass_count pass_bitrate : Nat)
      (pass_input_end pass_aborted : Bool)
  | cont (pkt_read : Nat) (pass_bitrate : Nat) (input_end : Bool)
      (buf : Buf) (st : InState) (ml : MainLocals)

/-- One iteration of the `do ... while (!input_end)` loop of
`ts::tsp::InputExecutor::main`, starting from the values `waitWork`
returned (`wr`).  `now` is the wall clock read when the bitrate
adjustment condition is evaluated; `pluginRate` and the `pcr`/`dts`
arguments are the oracle outputs of the plugin and of the analyzers for
a possible `getBitrate()` call.  Note that the iteration uses only
`wr.pkt_first`, `wr.pkt_cnt`, `wr.aborted` and `wr.timeout`: the
`bitrate` and `input_end` values returned by `waitWork` are dead (the
locals are overwritten before every use). -/
def mainStep (opts : InOpts) (buf : Buf) (st : InState) (ml : MainLocals)
    (wr : WaitResult) (now : Nat) (pluginRate : Nat) (pcr_valid : Bool)
    (pcr188 : Nat) (dts_valid : Bool) (dts188 : Nat) : MainOut :=
  if wr.aborted then .abortExit
  else if wr.timeout then .timeoutExit 0 ml.tsp_bitrate true false
  else
    let pkt_max := if 0 < opts.max_input_pkt ∧
        opts.max_input_pkt < wr.pkt_cnt then opts.max_input_pkt
      else wr.pkt_cnt
    match (if ml.plugin_completed then (0, buf, st)
           else receiveAndStuff opts buf st wr.pkt_first pkt_max) with
    | (pkt_read1, buf1, st1) =>
      let completed1 := ml.plugin_completed || (pkt_read1 == 0)
      match (if completed1 ∧ 0 < st1.instuff_stop_remain ∧
                pkt_read1 < pkt_max then
              match receiveNullPackets buf1 st1 (wr.pkt_first + pkt_read1)
                  (min st1.instuff_stop_remain (pkt_max - pkt_read1)) with
              | (c, bufn, stn) =>
                  (pkt_read1 + c, bufn,
                   { stn with instuff_stop_remain :=
                       stn.instuff_stop_remain - c })
            else (pkt_read1, buf1, st1)) with
      | (pkt_read2, buf2, st2) =>
        let input_end := completed1 && (st2.instuff_stop_remain == 0)
        let ml2 :=
          if opts.bitrate = 0 ∧
              ((ml.tsp_bitrate = 0 ∧ ml.due_packet ≤ st2.plugin_pkts) ∨
                ml.due_time < now) then
            let dp := if ml.tsp_bitrate = 0 then
                bumpDuePacket ml.due_packet opts.init_bitrate_adj
                  st2.plugin_pkts
              else ml.due_packet
            let dt := if ml.due_time ≤ now then now + opts.bitrate_adj
              else ml.due_time
            let g := getBitrate opts pluginRate pcr_valid pcr188 dts_valid
              dts188 ml.use_dts
            let tb := if 0 < g.1 then g.1 else ml.tsp_bitrate
            { plugin_completed := completed1, tsp_bitrate := tb,
              due_packet := dp, due_time := dt, use_dts := g.2 }
          else { ml with plugin_completed := completed1 }
        .cont pkt_read2 ml2.tsp_bitrate input_end buf2 st2 ml2

/-- The slice of `count` buffer slots starting at `first` (the packets a
`passPackets(count, ...)` call hands to the successor). -/
def window (buf : Buf) (first count : Nat) : List (Pkt × Meta) :=
  (List.range count).map (fun k => buf (first + k))

def mainReadCount : MainOut → Nat
  | .cont r _ _ _ _ _ => r
  | .timeoutExit c _ _ _ => c
  | .abortExit => 0

def mainInputEnd : MainOut → Bool
  | .cont _ _ ie _ _ _ => ie
  | .timeoutExit _ _ ie _ => ie
  | .abortExit => false

def contBuf (dflt : Buf) : MainOut → Buf
  | .cont _ _ _ b _ _ => b
  | _ => dflt

def contSt (dflt : InState) : MainOut → InState
  | .cont _ _ _ _ s _ => s
  | _ => dflt

def contMl (dflt : MainLocals) : MainOut → MainLocals
  | .cont _ _ _ _ _ m => m
  | _ => dflt

/-- Arena content before the pipeline starts. -/
def emptyBuf : Buf := fun _ => ({ b0 := 0, tag := 0 }, Meta.reset)

/-- A null packet slot as produced by the stuffing paths. -/
def nullItem : Pkt × Meta := (NullPacket, { input_stuffing := true })

/-- A real packet slot with payload tag `t` as produced by the plugin. -/
def realItem (t : Nat) : Pkt × Meta := ({ b0 := 0x47, tag := t }, Meta.reset)

/-! ### Concrete scenario of C5: leading 3, trailing 2, ratio 2 nulls per
5 reals, input unit yielding 11 real packets then ending, arena
capacity 64 (initial load of half the buffer, then the remainder). -/
def opts5 : InOpts :=
  { bitrate := 1000, instuff_nullpkt := 2, instuff_inpkt := 5,
    instuff_start := 3, instuff_stop := 2, max_input_pkt := 0,
    init_bitrate_adj := 1000, bitrate_adj := 5000 }

def st5 : InState :=
  { in_sync_lost := false, instuff_start_remain := 3,
    instuff_stop_remain := 2, instuff_nullpkt_remain := 0,
    instuff_inpkt_remain := 0,
    stream := (List.range 11).map (fun k => { b0 := 0x47, tag := k + 1 }),
    plugin_pkts := 0, nonplugin_pkts := 0 }

def ml5 : MainLocals :=
  { plugin_completed := false, tsp_bitrate := 1000, due_packet := 1000,
    due_time := 5000, use_dts := false }

def run5a : MainOut :=
  mainStep opts5 emptyBuf st5 ml5
    { pkt_first := 0, pkt_cnt := 32, bitrate := 0, input_end := false,
      aborted := false, timeout := false } 0 0 false 0 false 0

def r5a : Nat := mainReadCount run5a

def run5b : MainOut :=
  mainStep opts5 (contBuf emptyBuf run5a) (contSt st5 run5a)
    (contMl ml5 run5a)
    { pkt_first := r5a, pkt_cnt := 64 - r5a, bitrate := 0,
      input_end := false, aborted := false, timeout := false } 0 0 false 0
    false 0

def r5b : Nat := mainReadCount run5b

/-- All packets the input stage hands to its successor over the run. -/
def produced5 : List (Pkt × Meta) :=
  window (contBuf emptyBuf run5a) 0 r5a
    ++ window (contBuf emptyBuf run5b) r5a r5b

/-- The packet sequence the code actually produces in the C5 scenario. -/
def expected5 : List (Pkt × Meta) :=
  List.replicate 3 nullItem
    ++ (List.range 5).map (fun k => realItem (k + 1))
    ++ List.replicate 2 nullItem
    ++ (List.range 5).map (fun k => realItem (k + 6))
    ++ List.replicate 2 nullItem
    ++ [realItem 11]
    ++ List.replicate 2 nullItem

/-! ### Concrete scenario of C10: leading stuffing 3, trailing stuffing 2,
no interleaving, and an input unit that ends before yielding any real
packet. -/
def opts10 : InOpts :=
  { bitrate := 1000, instuff_nullpkt := 0, instuff_inpkt := 0,
    instuff_start := 3, instuff_stop := 2, max_input_pkt := 0,
    init_bitrate_adj := 1000, bitrate_adj := 5000 }

def st10 : InState :=
  { in_sync_lost := false, instuff_start_remain := 3,
    instuff_stop_remain := 2, instuff_nullpkt_remain := 0,
    instuff_inpkt_remain := 0, stream := [], plugin_pkts := 0,
    nonplugin_pkts := 0 }

def ml10 : MainLocals :=
  { plugin_completed := false, tsp_bitrate := 1000, due_packet := 1000,
    due_time := 5000, use_dts := false }

def run10 : MainOut :=
  mainStep opts10 emptyBuf st10 ml10
    { pkt_first := 0, pkt_cnt := 32, bitrate := 0, input_end := false,
      aborted := false, timeout := false } 0 0 false 0 false 0

/-- States used by the C6 witness: sync already lost, and a read whose
second packet has a corrupt sync byte. -/
def stLost : InState :=
  { st10 with in_sync_lost := true, stream := [{ b0 := 0x47, tag := 1 }] }

def stBad : InState :=
  { st10 with stream := [{ b0 := 0x47, tag := 1 }, { b0 := 0x12, tag := 2 },
      { b0 := 0x47, tag := 3 }] }

/-! ### Restart model (processPendingRestart of tspPluginExecutor.cpp)

Messages sent to the restart request's report (the diagnostic sink the
remote controller supplied) are modelled by their severity; the plugin is
modelled by its current argument list plus predicates telling which
argument lists analyze / getOptions / start successfully. -/
inductive MsgLevel where
  | verbose
  | warning
  | error
  deriving DecidableEq, Repr

/-- `ts::tsp::PluginExecutor::RestartData`: the pending request, with the
messages accumulated on its diagnostic sink and the number of times its
condition variable was signalled. -/
structure RestartData where
  same_args : Bool
  args : List String
  completed : Bool
  signals : Nat
  msgs : List MsgLevel
  deriving DecidableEq, Repr

/-- Outcome predicates of the plugin lifecycle calls, as functions of the
argument list the plugin is configured with. -/
structure PluginBehavior where
  analyze_ok : List String → Bool
  getOptions_ok : List String → Bool
  start_ok : List String → Bool

/-- `plugin()->analyze(name, args, false) && plugin()->getOptions() &&
plugin()->start()`: a successful analysis installs `args` as the plugin's
current arguments; the short-circuit keeps the previous arguments when
the analysis itself fails.  Returns success and the plugin's current
arguments afterwards. -/
def tryStart (pb : PluginBehavior) (cur args : List String) :
    Bool × List String :=
  if pb.analyze_ok args then
    if pb.getOptions_ok args then (pb.start_ok args, args)
    else (false, args)
  else (false, cur)

/-- The executor's `_restart` trigger and `_restart_data` pointer. -/
structure RestartCtx where
  restart : Bool
  restart_data : Option RestartData

/-- `ts::tsp::PluginExecutor::processPendingRestart()`: immediate success
when no restart is pending; otherwise stop the plugin, log a verbose
message to the request's sink, restart with the same or the new
arguments, fall back to the saved previous arguments (after a warning on
the sink) when the new ones fail, then in every case mark the request
completed, signal its waiter once and clear the trigger.  Returns
`(success, plugin arguments, final request, cleared trigger)`. -/
def processPendingRestart (pb : PluginBehavior) (cur : List String)
    (ctx : RestartCtx) :
    Bool × List String × Option RestartData × RestartCtx :=
  if ctx.restart then
    match ctx.restart_data with
    | none => (true, cur, none, ctx)
    | some rd =>
      let rd1 := { rd with msgs := rd.msgs ++ [MsgLevel.verbose] }
      if rd1.same_args then
        (pb.start_ok cur, cur,
         some { rd1 with completed := true, signals := rd1.signals + 1 },
         { restart := false, restart_data := none })
      else
        match tryStart pb cur rd1.args with
        | (s1, cur1) =>
          if s1 then
            (true, cur1,
             some { rd1 with
                      completed := true
                      signals := rd1.signals + 1 },
             { restart := false, restart_data := none })
          else
            let rd2 := { rd1 with msgs := rd1.msgs ++ [MsgLevel.warning] }
            match tryStart pb cur1 cur with
            | (s2, cur2) =>
              (s2, cur2,
               some { rd2 with
                        completed := true
                        signals := rd2.signals + 1 },
               { restart := false, restart_data := none })
  else (true, cur, ctx.restart_data, ctx)

/-- Behavior and request used by the C8 witness: arguments `["B"]` fail
to start, arguments `["A"]` work. -/
def pbW : PluginBehavior :=
  { analyze_ok := fun _ => true,
    getOptions_ok := fun _ => true,
    start_ok := fun a => a == ["A"] }

def rdW : RestartData :=
  { same_args := false, args := ["B"], completed := false, signals := 0,
    msgs := [] }

/-- In a ring of at least two stages, the successor of a stage is distinct
from it. -/
theorem succ_ne_self (hn : 0 < n) (i : Fin (n + 1)) : i + 1 ≠ i := by
  intro h
  have hv : ((i : Nat) + 1) % (n + 1) = (i : Nat) := by
    have := congrArg Fin.val h
    simpa [Fin.add_def] using this
  rcases Nat.lt_or_ge ((i : Nat) + 1) (n + 1) with hlt | hge
  · rw [Nat.mod_eq_of_lt hlt] at hv
    omega
  · have : (i : Nat) < n + 1 := i.isLt
    have : (i : Nat) + 1 = n + 1 := by omega
    rw [this, Nat.mod_self] at hv
    omega

/-- A stage other than the output stage always has a distinct successor
(a ring with a non-output stage has at least two stages). -/
theorem succ_ne_self_of_ne_last {i : Fin (n + 1)} (h : i ≠ Fin.last n) :
    i + 1 ≠ i := by
  cases n with
  | zero => exact absurd (Fin.fin_one_eq_zero i ▸ rfl) h
  | succ m => exact succ_ne_self (Nat.succ_pos m) i

/-- Pointwise description of the state produced by `passPackets`: stage `i`
has its window advanced and, when the (possibly picked-up) abort flag is
set, its aborting flag raised; the ring successor has its count, input-end
and bitrate updated; all other stages are untouched. -/
theorem passPackets_apply (hn : 0 < n) (cap : Nat) (s : Fin (n + 1) → Stage)
    (i : Fin (n + 1)) (c b : Nat) (ie ab : Bool) (j : Fin (n + 1)) :
    (passPackets cap s i c b ie ab).1 j =
      (if j = i then
        { pkt_first := ((s i).pkt_first + c) % cap
          pkt_cnt := (s i).pkt_cnt - c
          input_end := (s i).input_end
          bitrate := (s i).bitrate
          tsp_aborting := (s i).tsp_aborting ||
            (if i = Fin.last n then ab else ab || (s (i + 1)).tsp_aborting) }
      else if j = i + 1 then
        { pkt_first := (s (i + 1)).pkt_first
          pkt_cnt := (s (i + 1)).pkt_cnt + c
          input_end := (s (i + 1)).input_end || ie
          bitrate := b
          tsp_aborting := (s (i + 1)).tsp_aborting }
      else s j) := by
  have h1 : i + 1 ≠ i := succ_ne_self hn i
  have h2 : i ≠ i + 1 := h1.symm
  by_cases hj : j = i <;> by_cases hj2 : j = i + 1
  · exact absurd (hj ▸ hj2) h2
  · subst hj
    by_cases hl : j = Fin.last n <;> cases ab <;>
      cases habt : (s (j + 1)).tsp_aborting <;>
      simp_all [passPackets, Function.update_apply]
  · subst hj2
    by_cases hl : i = Fin.last n <;> cases ab <;>
      cases habt : (s (i + 1)).tsp_aborting <;>
      simp_all [passPackets, Function.update_apply]
  · by_cases hl : i = Fin.last n <;> cases ab <;>
      cases habt : (s (i + 1)).tsp_aborting <;>
      simp_all [passPackets, Function.update_apply]

/-- Return value of `passPackets`: `!input_end && !aborted` where `aborted`
has picked up the successor's aborting flag unless we are the output. -/
theorem passPackets_snd (hn : 0 < n) (cap : Nat) (s : Fin (n + 1) → Stage)
    (i : Fin (n + 1)) (c b : Nat) (ie ab : Bool) :
    (passPackets cap s i c b ie ab).2 =
      (!ie && !(if i = Fin.last n then ab
                else ab || (s (i + 1)).tsp_aborting)) := by
  have h2 : i ≠ i + 1 := (succ_ne_self hn i).symm
  have h0 : n ≠ 0 := Nat.pos_iff_ne_zero.mp hn
  by_cases hl : i = Fin.last n <;>
    simp [passPackets, Function.update_apply, hl, h2, h0]

/-- C2: for a stage with window `(first, cnt)` and `count ≤ cnt`,
`passPackets(count, bitrate, input_end, aborted)` sets the window to
`((first + count) mod capacity, cnt - count)`, adds exactly `count` to the
ring successor's window count and leaves the successor's window start
unchanged. -/
theorem c2_passPackets_window (hn : 0 < n) (cap : Nat)
    (s : Fin (n + 1) → Stage) (i : Fin (n + 1)) (count bitrate : Nat)
    (input_end aborted : Bool) (hcount : count ≤ (s i).pkt_cnt) :
    ((passPackets cap s i count bitrate input_end aborted).1 i).pkt_first
        = ((s i).pkt_first + count) % cap ∧
    ((passPackets cap s i count bitrate input_end aborted).1 i).pkt_cnt
        = (s i).pkt_cnt - count ∧
    ((passPackets cap s i count bitrate input_end aborted).1 (i + 1)).pkt_cnt
        = (s (i + 1)).pkt_cnt + count ∧
    ((passPackets cap s i count bitrate input_end aborted).1 (i + 1)).pkt_first
        = (s (i + 1)).pkt_first := by
  have h1 : i + 1 ≠ i := succ_ne_self hn i
  refine ⟨?_, ?_, ?_, ?_⟩ <;> rw [passPackets_apply hn] <;> simp [h1]

/-- Witness for C2 at a concrete two-stage state. -/
theorem c2_passPackets_window_witness :
    (0 < 1 ∧ 2 ≤ (exS 0).pkt_cnt) ∧
    (((passPackets 8 exS 0 2 7 false false).1 0).pkt_first
        = ((exS 0).pkt_first + 2) % 8 ∧
     ((passPackets 8 exS 0 2 7 false false).1 0).pkt_cnt
        = (exS 0).pkt_cnt - 2 ∧
     ((passPackets 8 exS 0 2 7 false false).1 (0 + 1)).pkt_cnt
        = (exS (0 + 1)).pkt_cnt + 2 ∧
     ((passPackets 8 exS 0 2 7 false false).1 (0 + 1)).pkt_first
        = (exS (0 + 1)).pkt_first) :=
  ⟨⟨Nat.one_pos, by decide⟩,
   c2_passPackets_window Nat.one_pos 8 exS 0 2 7 false false (by decide)⟩

/-- C3 (amended): when a stage's ring successor is aborting, the wait loop
of `waitWork` exits at once (its guard is false no matter what), and every
stage other than the output stage reports `aborted = true`; the output
stage, whose ring successor is the input stage, reports `aborted = false`. -/
theorem c3_waitWork_succ_aborting (cap : Nat) (s : Fin (n + 1) → Stage)
    (i : Fin (n + 1)) (t : Bool) (h : (s (i + 1)).tsp_aborting = true) :
    waitGuard s i t = false ∧
      (i ≠ Fin.last n → (waitWork cap s i t).aborted = true) := by
  constructor
  · simp [waitGuard, h]
  · intro hi
    simp [waitWork, h, hi]

/-- Witness for the amended C3 at a concrete two-stage state. -/
theorem c3_waitWork_succ_aborting_witness :
    ((![{ pkt_first := 0, pkt_cnt := 4, input_end := false, bitrate := 0,
          tsp_aborting := false },
        { pkt_first := 0, pkt_cnt := 0, input_end := false, bitrate := 0,
          tsp_aborting := true }] : Fin 2 → Stage) (0 + 1)).tsp_aborting
        = true ∧
    (waitGuard
        (![{ pkt_first := 0, pkt_cnt := 4, input_end := false, bitrate := 0,
             tsp_aborting := false },
           { pkt_first := 0, pkt_cnt := 0, input_end := false, bitrate := 0,
             tsp_aborting := true }] : Fin 2 → Stage) 0 false = false ∧
      ((0 : Fin 2) ≠ Fin.last 1 →
        (waitWork 8
          (![{ pkt_first := 0, pkt_cnt := 4, input_end := false, bitrate := 0,
               tsp_aborting := false },
             { pkt_first := 0, pkt_cnt := 0, input_end := false, bitrate := 0,
               tsp_aborting := true }] : Fin 2 → Stage) 0 false).aborted
            = true)) :=
  ⟨by decide, c3_waitWork_succ_aborting 8 _ 0 false (by decide)⟩

/-- C3 counterexample: in a two-stage pipeline the output stage's ring
successor is the input stage; with the input stage aborting, the output
stage's `waitWork` does exit immediately (the wait guard is false) yet
reports `aborted = false`, refuting the claim that every stage reports
`aborted = true` when its ring successor is aborting. -/
theorem c3_counterexample :
    ((![{ pkt_first := 0, pkt_cnt := 0, input_end := false, bitrate := 0,
          tsp_aborting := true },
        { pkt_first := 0, pkt_cnt := 0, input_end := false, bitrate := 0,
          tsp_aborting := false }] : Fin 2 → Stage) (1 + 1)).tsp_aborting
        = true ∧
    waitGuard
        (![{ pkt_first := 0, pkt_cnt := 0, input_end := false, bitrate := 0,
             tsp_aborting := true },
           { pkt_first := 0, pkt_cnt := 0, input_end := false, bitrate := 0,
             tsp_aborting := false }] : Fin 2 → Stage) 1 false = false ∧
    (waitWork 8
        (![{ pkt_first := 0, pkt_cnt := 0, input_end := false, bitrate := 0,
             tsp_aborting := true },
           { pkt_first := 0, pkt_cnt := 0, input_end := false, bitrate := 0,
             tsp_aborting := false }] : Fin 2 → Stage) 1 false).aborted
        = false := by
  decide

/-- C9: `waitWork` never reports a window slice that wraps around the arena
end: without timeout the reported count is exactly
`min (window count) (capacity - window start)`, on timeout it is `0`, the
reported slice stays within the arena, and `input_end` is reported true
only when the slice covers the stage's whole window. -/
theorem c9_waitWork_no_wrap (cap : Nat) (s : Fin (n + 1) → Stage)
    (i : Fin (n + 1)) (t : Bool) :
    (waitWork cap s i false).pkt_cnt
        = min (s i).pkt_cnt (cap - (s i).pkt_first) ∧
    (waitWork cap s i true).pkt_cnt = 0 ∧
    ((s i).pkt_first < cap →
      (waitWork cap s i t).pkt_first + (waitWork cap s i t).pkt_cnt ≤ cap) ∧
    ((waitWork cap s i t).input_end = true →
      (waitWork cap s i t).pkt_cnt = (s i).pkt_cnt) := by
  refine ⟨rfl, rfl, ?_, ?_⟩
  · intro h
    cases t <;> simp [waitWork] <;> omega
  · intro h
    cases t <;> simp_all [waitWork]

/-- Witness for C9 at a concrete two-stage state. -/
theorem c9_waitWork_no_wrap_witness :
    ((exS 0).pkt_first < 8 ∧
      (waitWork 8 exS 0 false).input_end = true → True) ∧
    ((waitWork 8 exS 0 false).pkt_cnt
        = min (exS 0).pkt_cnt (8 - (exS 0).pkt_first) ∧
     (waitWork 8 exS 0 true).pkt_cnt = 0 ∧
     ((exS 0).pkt_first < 8 →
       (waitWork 8 exS 0 false).pkt_first
         + (waitWork 8 exS 0 false).pkt_cnt ≤ 8) ∧
     ((waitWork 8 exS 0 false).input_end = true →
       (waitWork 8 exS 0 false).pkt_cnt = (exS 0).pkt_cnt)) :=
  ⟨fun _ => trivial, c9_waitWork_no_wrap 8 exS 0 false⟩

/-- One hand-off conserves counts on every index set: removing `count` from
stage `i` and adding it to stage `i + 1` leaves any partial sum unchanged
up to the transferred amount on each side. -/
theorem sum_cnt_pass (hn : 0 < n) (cap : Nat) (s : Fin (n + 1) → Stage)
    (i : Fin (n + 1)) (c b : Nat) (ie ab : Bool)
    (hc : c ≤ (s i).pkt_cnt) (t : Finset (Fin (n + 1))) :
    (∑ k ∈ t, ((passPackets cap s i c b ie ab).1 k).pkt_cnt)
        + (if i ∈ t then c else 0)
      = (∑ k ∈ t, (s k).pkt_cnt) + (if i + 1 ∈ t then c else 0) := by
  have h1 : i + 1 ≠ i := succ_ne_self hn i
  have hpt : ∀ k ∈ t,
      ((passPackets cap s i c b ie ab).1 k).pkt_cnt
          + (if k = i then c else 0)
        = (s k).pkt_cnt + (if k = i + 1 then c else 0) := by
    intro k _
    rw [passPackets_apply hn]
    by_cases hk : k = i
    · subst hk
      simp [h1.symm]
      omega
    · by_cases hk2 : k = i + 1
      · subst hk2
        simp [hk]
      · simp [hk, hk2]
  calc (∑ k ∈ t, ((passPackets cap s i c b ie ab).1 k).pkt_cnt)
        + (if i ∈ t then c else 0)
      = ∑ k ∈ t, (((passPackets cap s i c b ie ab).1 k).pkt_cnt
          + (if k = i then c else 0)) := by
        rw [Finset.sum_add_distrib, Finset.sum_ite_eq' t i (fun _ => c)]
    _ = ∑ k ∈ t, ((s k).pkt_cnt + (if k = i + 1 then c else 0)) :=
        Finset.sum_congr rfl hpt
    _ = (∑ k ∈ t, (s k).pkt_cnt) + (if i + 1 ∈ t then c else 0) := by
        rw [Finset.sum_add_distrib, Finset.sum_ite_eq' t (i + 1) (fun _ => c)]

/-- `passPackets` preserves the total of all window counts. -/
theorem sumCnt_pass (hn : 0 < n) (cap : Nat) (s : Fin (n + 1) → Stage)
    (i : Fin (n + 1)) (c b : Nat) (ie ab : Bool) (hc : c ≤ (s i).pkt_cnt) :
    sumCnt (passPackets cap s i c b ie ab).1 = sumCnt s := by
  have h := sum_cnt_pass hn cap s i c b ie ab hc Finset.univ
  simpa [sumCnt, Finset.mem_univ] using h

/-- Successor value arithmetic for a non-output stage. -/
theorem val_succ_of_ne_last {i : Fin (n + 1)} (h : i ≠ Fin.last n) :
    ((i + 1 : Fin (n + 1)) : Nat) = (i : Nat) + 1 := by
  rw [Fin.val_add_one]
  simp [h]

/-- Window start of every stage after a `passPackets` call: only the
calling stage moves. -/
theorem passPackets_pkt_first (hn : 0 < n) (cap : Nat)
    (s : Fin (n + 1) → Stage) (i : Fin (n + 1)) (c b : Nat) (ie ab : Bool)
    (j : Fin (n + 1)) :
    ((passPackets cap s i c b ie ab).1 j).pkt_first
      = if j = i then ((s i).pkt_first + c) % cap else (s j).pkt_first := by
  rw [passPackets_apply hn]
  by_cases hj : j = i
  · subst hj; simp
  · by_cases hj2 : j = i + 1
    · subst hj2; simp [hj]
    · simp [hj, hj2]

/-- `passPackets` preserves the window layout invariant. -/
theorem inv_pass (hn : 0 < n) {cap : Nat} {s : Fin (n + 1) → Stage}
    {i : Fin (n + 1)} {c : Nat} (b : Nat) (ie ab : Bool)
    (hc : c ≤ (s i).pkt_cnt) (h : Inv cap s) :
    Inv cap (passPackets cap s i c b ie ab).1 := by
  obtain ⟨hsum, base, hbase⟩ := h
  refine ⟨by rw [sumCnt_pass hn cap s i c b ie ab hc, hsum], ?_⟩
  have htail : ∀ j, tailCnt (passPackets cap s i c b ie ab).1 j
        + (if j < i then c else 0)
      = tailCnt s j + (if j < i + 1 then c else 0) := by
    intro j
    have hpass := sum_cnt_pass hn cap s i c b ie ab hc (Finset.Ioi j)
    simpa [tailCnt, Finset.mem_Ioi] using hpass
  by_cases hl : i = Fin.last n
  · refine ⟨base + c, fun j => ?_⟩
    rw [passPackets_pkt_first hn]
    by_cases hj : j = i
    · subst hj
      have hT : tailCnt (passPackets cap s j c b ie ab).1 j = tailCnt s j := by
        have hx := htail j
        have h1 : ¬ j < j := lt_irrefl j
        have h2 : ¬ j < j + 1 := by
          rw [hl, Fin.last_add_one]
          exact Fin.not_lt_zero _
        simpa [h1, h2] using hx
      rw [if_pos rfl, hbase j, Nat.mod_add_mod, hT]
      have heq : base + tailCnt s j + c = base + c + tailCnt s j := by omega
      rw [heq]
    · rw [if_neg hj, hbase j]
      have hj_lt : j < i := by
        rw [hl]
        exact lt_of_le_of_ne (Fin.le_last j) (fun hc2 => hj (hc2.trans hl.symm))
      have hnot : ¬ j < i + 1 := by
        rw [hl, Fin.last_add_one]
        exact Fin.not_lt_zero _
      have hx := htail j
      rw [if_pos hj_lt, if_neg hnot] at hx
      have heq : base + tailCnt s j
          = base + c + tailCnt (passPackets cap s i c b ie ab).1 j := by omega
      rw [heq]
  · refine ⟨base, fun j => ?_⟩
    rw [passPackets_pkt_first hn]
    have hval : ((i + 1 : Fin (n + 1)) : Nat) = (i : Nat) + 1 :=
      val_succ_of_ne_last hl
    by_cases hj : j = i
    · subst hj
      have hT : tailCnt (passPackets cap s j c b ie ab).1 j
          = tailCnt s j + c := by
        have hx := htail j
        have h1 : ¬ j < j := lt_irrefl j
        have h2 : j < j + 1 := by
          rw [Fin.lt_def, hval]
          omega
        simpa [h1, h2] using hx
      rw [if_pos rfl, hbase j, Nat.mod_add_mod, hT, Nat.add_assoc]
    · rw [if_neg hj]
      have hT : tailCnt (passPackets cap s i c b ie ab).1 j = tailCnt s j := by
        have hx := htail j
        by_cases hji : j < i
        · have hji2 : j < i + 1 := by
            rw [Fin.lt_def, hval]
            rw [Fin.lt_def] at hji
            omega
          rw [if_pos hji, if_pos hji2] at hx
          omega
        · have hji2 : ¬ j < i + 1 := by
            intro hcon
            rw [Fin.lt_def, hval] at hcon
            rw [Fin.lt_def] at hji
            have hje : (j : Nat) = (i : Nat) := by omega
            exact hj (Fin.ext hje)
          rw [if_neg hji, if_neg hji2] at hx
          omega
      rw [hbase j, hT]

/-- The state installed by `initAllBuffers` satisfies the layout
invariant. -/
theorem inv_init (hn : 0 < n) (hcap : 0 < cap) {r : Nat} (br : Nat)
    (hr : r ≤ cap) : Inv cap (initAllBuffersState (n := n) cap r br) := by
  have hv1 : ((1 : Fin (n + 1)) : Nat) = 1 := by
    have : 1 % (n + 1) = 1 := Nat.mod_eq_of_lt (by omega)
    simpa [Fin.val_one'] using this
  have h0ne : n ≠ 0 := by omega
  have h01 : (0 : Fin (n + 1)) ≠ 1 := by
    intro h
    have h2 := congrArg Fin.val h
    simp [hv1] at h2
    omega
  constructor
  · have hpt : ∀ j : Fin (n + 1),
        (initAllBuffersState (n := n) cap r br j).pkt_cnt
          = (if j = (0 : Fin (n + 1)) then cap - r else 0)
            + (if j = 1 then r else 0) := by
      intro j
      unfold initAllBuffersState
      by_cases hj0 : j = 0
      · subst hj0
        simp [h01]
      · by_cases hj1 : j = 1
        · subst hj1
          simp [hj0, h0ne]
        · simp [hj0, hj1]
    rw [sumCnt, Finset.sum_congr rfl (fun j _ => hpt j),
      Finset.sum_add_distrib,
      Finset.sum_ite_eq' Finset.univ (0 : Fin (n + 1)) (fun _ => cap - r),
      Finset.sum_ite_eq' Finset.univ (1 : Fin (n + 1)) (fun _ => r)]
    simp
    omega
  · refine ⟨0, fun j => ?_⟩
    by_cases hj0 : j = 0
    · subst hj0
      have hT : tailCnt (initAllBuffersState (n := n) cap r br) 0 = r := by
        have hpt : ∀ k ∈ Finset.Ioi (0 : Fin (n + 1)),
            (initAllBuffersState (n := n) cap r br k).pkt_cnt
              = if k = 1 then r else 0 := by
          intro k hk
          have hk0 : k ≠ 0 := (Finset.mem_Ioi.mp hk).ne'
          unfold initAllBuffersState
          by_cases hk1 : k = 1
          · subst hk1
            simp [hk0, h0ne]
          · simp [hk0, hk1]
        rw [tailCnt, Finset.sum_congr rfl hpt,
          Finset.sum_ite_eq' (Finset.Ioi (0 : Fin (n + 1))) 1 (fun _ => r)]
        have h1mem : (1 : Fin (n + 1)) ∈ Finset.Ioi (0 : Fin (n + 1)) := by
          rw [Finset.mem_Ioi, Fin.lt_def, hv1]
          simp
        rw [if_pos h1mem]
      rw [hT]
      show (initAllBuffersState (n := n) cap r br 0).pkt_first = (0 + r) % cap
      unfold initAllBuffersState
      simp
    · have hfirst : (initAllBuffersState (n := n) cap r br j).pkt_first = 0 := by
        unfold initAllBuffersState
        by_cases hj1 : j = 1
        · rw [if_neg hj0, if_pos hj1]
        · rw [if_neg hj0, if_neg hj1]
      have hT : tailCnt (initAllBuffersState (n := n) cap r br) j = 0 := by
        refine Finset.sum_eq_zero (fun k hk => ?_)
        have hkj : j < k := Finset.mem_Ioi.mp hk
        have hj_pos : 0 < (j : Nat) := by
          rcases Nat.eq_zero_or_pos (j : Nat) with h | h
          · exact absurd (Fin.ext (by simp [h])) hj0
          · exact h
        have hk0 : k ≠ 0 := by
          intro h
          subst h
          rw [Fin.lt_def] at hkj
          simp at hkj
        have hk1 : k ≠ 1 := by
          intro h
          subst h
          rw [Fin.lt_def, hv1] at hkj
          omega
        unfold initAllBuffersState
        simp [hk0, hk1]
      rw [hfirst, hT]
      simp

/-- Every reachable pipeline state satisfies the layout invariant (and the
stage/capacity positivity facts carried by reachability). -/
theorem reachable_inv {s : Fin (n + 1) → Stage}
    (h : Reachable n cap s) : 0 < n ∧ 0 < cap ∧ Inv cap s := by
  induction h with
  | init r br hn hcap hr => exact ⟨hn, hcap, inv_init hn hcap br hr⟩
  | step s i c b ie ab hs hc ih =>
      exact ⟨ih.1, ih.2.1, inv_pass ih.1 b ie ab hc ih.2.2⟩

/-- The layout invariant forces disjoint windows (ordered case). -/
theorem inv_disjoint_lt {cap : Nat} {s : Fin (n + 1) → Stage}
    (h : Inv cap s) {i j : Fin (n + 1)} (hij : i < j) (x : Nat)
    (hi : inWindow cap (s i) x) (hj : inWindow cap (s j) x) : False := by
  obtain ⟨hsum, base, hbase⟩ := h
  obtain ⟨d, hd, hx1⟩ := hi
  obtain ⟨e, he, hx2⟩ := hj
  have hsub1 : insert j (Finset.Ioi j) ⊆ Finset.Ioi i := by
    intro k hk
    rcases Finset.mem_insert.mp hk with rfl | hk'
    · exact Finset.mem_Ioi.mpr hij
    · exact Finset.mem_Ioi.mpr (lt_trans hij (Finset.mem_Ioi.mp hk'))
  have h1 : (s j).pkt_cnt + tailCnt s j ≤ tailCnt s i := by
    have hmono : ∑ k ∈ insert j (Finset.Ioi j), (s k).pkt_cnt
        ≤ ∑ k ∈ Finset.Ioi i, (s k).pkt_cnt :=
      Finset.sum_le_sum_of_subset hsub1
    rw [Finset.sum_insert Finset.not_mem_Ioi_self] at hmono
    exact hmono
  have h2 : tailCnt s i + (s i).pkt_cnt ≤ cap := by
    have hmono : ∑ k ∈ insert i (Finset.Ioi i), (s k).pkt_cnt
        ≤ ∑ k, (s k).pkt_cnt :=
      Finset.sum_le_sum_of_subset (Finset.subset_univ _)
    rw [Finset.sum_insert Finset.not_mem_Ioi_self] at hmono
    rw [← hsum]
    show tailCnt s i + (s i).pkt_cnt ≤ sumCnt s
    rw [sumCnt, tailCnt]
    omega
  have hx : (base + (tailCnt s i + d)) % cap
      = (base + (tailCnt s j + e)) % cap := by
    have e1 : x = (base + (tailCnt s i + d)) % cap := by
      rw [hx1, hbase i, Nat.mod_add_mod, Nat.add_assoc]
    have e2 : x = (base + (tailCnt s j + e)) % cap := by
      rw [hx2, hbase j, Nat.mod_add_mod, Nat.add_assoc]
    exact e1.symm.trans e2
  have hcap : 0 < cap := by
    rcases Nat.eq_zero_or_pos cap with h0 | h0
    · exfalso
      have hle : (s i).pkt_cnt ≤ sumCnt s := by
        rw [sumCnt]
        exact Finset.single_le_sum (f := fun k => (s k).pkt_cnt)
          (fun k _ => Nat.zero_le _) (Finset.mem_univ i)
      omega
    · exact h0
  have hlt1 : tailCnt s i + d < cap := by omega
  have hlt2 : tailCnt s j + e < cap := by omega
  have heq : tailCnt s i + d = tailCnt s j + e := by
    have hmod : Nat.ModEq cap (tailCnt s i + d) (tailCnt s j + e) :=
      Nat.ModEq.add_left_cancel' base hx
    have : (tailCnt s i + d) % cap = (tailCnt s j + e) % cap := hmod
    rwa [Nat.mod_eq_of_lt hlt1, Nat.mod_eq_of_lt hlt2] at this
  omega

/-- The layout invariant forces pairwise disjoint windows. -/
theorem inv_disjoint {cap : Nat} {s : Fin (n + 1) → Stage} (h : Inv cap s) :
    ∀ i j, i ≠ j → ∀ x, inWindow cap (s i) x → inWindow cap (s j) x →
      False := by
  intro i j hij x hi hj
  rcases lt_or_gt_of_ne hij with hlt | hgt
  · exact inv_disjoint_lt h hlt x hi hj
  · exact inv_disjoint_lt h hgt x hj hi

/-- C1: in every reachable pipeline state the windows of distinct stages
are pairwise disjoint and the window counts sum to at most the arena
capacity; `initAllBuffers` establishes this (reachability starts there)
and every `passPackets` call within the precondition preserves the exact
sum of all window counts, moving `count` from the caller to its ring
successor. -/
theorem c1_windows_disjoint_and_bounded {n cap : Nat}
    {s : Fin (n + 1) → Stage} (hs : Reachable n cap s) :
    (∀ i j, i ≠ j → ∀ x, inWindow cap (s i) x → inWindow cap (s j) x →
      False) ∧
    sumCnt s ≤ cap ∧
    (∀ (i : Fin (n + 1)) (count bitrate : Nat) (ie ab : Bool),
      count ≤ (s i).pkt_cnt →
      sumCnt (passPackets cap s i count bitrate ie ab).1 = sumCnt s) := by
  obtain ⟨hn, hcap, hinv⟩ := reachable_inv hs
  refine ⟨inv_disjoint hinv, le_of_eq hinv.1, ?_⟩
  intro i count bitrate ie ab hcnt
  exact sumCnt_pass hn cap s i count bitrate ie ab hcnt

/-- Witness for C1 on the concrete initial state of a two-stage pipeline
with capacity 8 after an initial load of 4 packets. -/
theorem c1_windows_disjoint_and_bounded_witness :
    (∀ i j : Fin 2, i ≠ j → ∀ x,
      inWindow 8 (initAllBuffersState 8 4 0 i) x →
      inWindow 8 (initAllBuffersState 8 4 0 j) x → False) ∧
    sumCnt (initAllBuffersState (n := 1) 8 4 0) ≤ 8 ∧
    (∀ (i : Fin 2) (count bitrate : Nat) (ie ab : Bool),
      count ≤ (initAllBuffersState (n := 1) 8 4 0 i).pkt_cnt →
      sumCnt (passPackets 8 (initAllBuffersState 8 4 0) i count bitrate
        ie ab).1 = sumCnt (initAllBuffersState (n := 1) 8 4 0)) :=
  c1_windows_disjoint_and_bounded
    (Reachable.init 4 0 Nat.one_pos (by omega) (by omega))

/-- C5 counterexample: in the stated scenario the code emits 20 packets,
not the 22 the claimed formula `3 + ceil(11/5)*2 + 11 + 2` yields, and
the packet right after the 3 leading nulls is a real packet, not the
first null of a claimed `(2 nulls, 5 reals)` cycle: the code reads the
reals of a cycle first and appends the nulls after each completed group
of 5. -/
theorem c5_counterexample :
    produced5.length = 20 ∧
    3 + ((11 + 5 - 1) / 5) * 2 + 11 + 2 = 22 ∧
    produced5.length ≠ 3 + ((11 + 5 - 1) / 5) * 2 + 11 + 2 ∧
    (produced5.getD 3 nullItem).2.input_stuffing = false := by
  decide

/-- C5 (amended): with leading 3, trailing 2, ratio 2 nulls per 5 reals
and an input unit yielding exactly 11 real packets then ending, the
produced sequence is 3 leading nulls, then per cycle 5 real packets
followed by 2 nulls for each completed group of 5, then the remaining
real packet, then the 2 trailing nulls; the total count is
`3 + 11 + (11/5)*2 + 2 = 20` and the run then reports end of input. -/
theorem c5_stuffing_sequence :
    produced5 = expected5 ∧
    produced5.length = 3 + 11 + (11 / 5) * 2 + 2 ∧
    mainInputEnd run5b = true := by
  decide

/-- `receiveAndValidate` adds exactly its returned count to the
`pluginPackets` counter. -/
theorem receiveAndValidate_plugin_pkts (buf : Buf) (st : InState)
    (idx m : Nat) :
    ((receiveAndValidate buf st idx m).2.2).plugin_pkts
      = st.plugin_pkts + (receiveAndValidate buf st idx m).1 := by
  unfold receiveAndValidate
  split
  · simp
  · simp

/-- The interleave loop adds exactly its `pkt_from_input` result to the
`pluginPackets` counter. -/
theorem stuffLoop_plugin_pkts (fuel : Nat) :
    ∀ (opts : InOpts) (buf : Buf) (st : InState) (idx remain : Nat),
    ((stuffLoop opts buf st idx remain fuel).2.2.2).plugin_pkts
      = st.plugin_pkts + (stuffLoop opts buf st idx remain fuel).2.1 := by
  induction fuel with
  | zero => intro opts buf st idx remain; simp [stuffLoop]
  | succ f ih =>
    intro opts buf st idx remain
    unfold stuffLoop
    simp only [receiveNullPackets]
    by_cases hr : remain - min st.instuff_nullpkt_remain remain = 0
    · simp [hr]
    · simp only [if_neg hr]
      set st1 : InState := { st with
        nonplugin_pkts :=
          st.nonplugin_pkts + min st.instuff_nullpkt_remain remain,
        instuff_nullpkt_remain :=
          st.instuff_nullpkt_remain - min st.instuff_nullpkt_remain remain }
        with hst1
      have hp1 : st1.plugin_pkts = st.plugin_pkts := rfl
      set st2 := if st1.instuff_nullpkt_remain = 0 ∧
          st1.instuff_inpkt_remain = 0
        then { st1 with instuff_inpkt_remain := opts.instuff_inpkt }
        else st1 with hst2
      have hp2 : st2.plugin_pkts = st.plugin_pkts := by
        rw [hst2]; split <;> rfl
      set mi := min (remain - min st.instuff_nullpkt_remain remain)
        st2.instuff_inpkt_remain with hmi
      rcases hrv : receiveAndValidate
          (writeNulls buf idx (min st.instuff_nullpkt_remain remain)) st2
          (idx + min st.instuff_nullpkt_remain remain) mi with
        ⟨count, buf2, st3x⟩
      have hp3 : st3x.plugin_pkts = st.plugin_pkts + count := by
        have := receiveAndValidate_plugin_pkts
          (writeNulls buf idx (min st.instuff_nullpkt_remain remain)) st2
          (idx + min st.instuff_nullpkt_remain remain) mi
        rw [hrv] at this
        simpa [hp2] using this
      simp only [hrv]
      split
      · split <;> simpa using hp3
      · rcases hloop : stuffLoop opts buf2
            (if ({ st3x with
                instuff_inpkt_remain :=
                  st3x.instuff_inpkt_remain - count } : InState).instuff_nullpkt_remain = 0 ∧
                ({ st3x with
                instuff_inpkt_remain :=
                  st3x.instuff_inpkt_remain - count } : InState).instuff_inpkt_remain = 0
              then { st3x with
                instuff_inpkt_remain := st3x.instuff_inpkt_remain - count,
                instuff_nullpkt_remain := opts.instuff_nullpkt }
              else { st3x with
                instuff_inpkt_remain := st3x.instuff_inpkt_remain - count })
            (idx + min st.instuff_nullpkt_remain remain + count)
            (remain - min st.instuff_nullpkt_remain remain - count) f with
          ⟨d, fi, buf3, st5⟩
        have hrec := ih opts buf2
          (if ({ st3x with
              instuff_inpkt_remain :=
                st3x.instuff_inpkt_remain - count } : InState).instuff_nullpkt_remain = 0 ∧
              ({ st3x with
              instuff_inpkt_remain :=
                st3x.instuff_inpkt_remain - count } : InState).instuff_inpkt_remain = 0
            then { st3x with
              instuff_inpkt_remain := st3x.instuff_inpkt_remain - count,
              instuff_nullpkt_remain := opts.instuff_nullpkt }
            else { st3x with
              instuff_inpkt_remain := st3x.instuff_inpkt_remain - count })
          (idx + min st.instuff_nullpkt_remain remain + count)
          (remain - min st.instuff_nullpkt_remain remain - count)
        rw [hloop] at hrec
        have hmid : (if ({ st3x with
            instuff_inpkt_remain :=
              st3x.instuff_inpkt_remain - count } : InState).instuff_nullpkt_remain = 0 ∧
            ({ st3x with
            instuff_inpkt_remain :=
              st3x.instuff_inpkt_remain - count } : InState).instuff_inpkt_remain = 0
          then { st3x with
            instuff_inpkt_remain := st3x.instuff_inpkt_remain - count,
            instuff_nullpkt_remain := opts.instuff_nullpkt }
          else { st3x with
            instuff_inpkt_remain :=
              st3x.instuff_inpkt_remain - count } : InState).plugin_pkts
            = st.plugin_pkts + count := by
          split <;> simpa using hp3
        rw [hmid] at hrec
        simp only [hloop]
        dsimp at hrec ⊢
        omega

/-- C10: `receiveAndStuff` returns 0 whenever the input plugin contributed
no packet during the call (its `pluginPackets` counter is unchanged), even
when leading or interleaved null packets were written into the buffer; in
the concrete no-input scenario the 3 leading nulls are written but the
call returns 0, the main loop therefore records plugin completion, and
the iteration delivers only the 2 trailing nulls (the pending leading
stuffing is never handed off). -/
theorem c10_zero_without_plugin_packets :
    (∀ (opts : InOpts) (buf : Buf) (st : InState) (idx m : Nat),
      ((receiveAndStuff opts buf st idx m).2.2).plugin_pkts
          = st.plugin_pkts →
      (receiveAndStuff opts buf st idx m).1 = 0) ∧
    ((receiveAndStuff opts10 emptyBuf st10 0 32).1 = 0 ∧
     window (receiveAndStuff opts10 emptyBuf st10 0 32).2.1 0 3
        = List.replicate 3 nullItem ∧
     (contMl ml10 run10).plugin_completed = true ∧
     mainReadCount run10 = 2 ∧
     window (contBuf emptyBuf run10) 0 (mainReadCount run10)
        = List.replicate 2 nullItem ∧
     mainInputEnd run10 = true) := by
  constructor
  · intro opts buf st idx m h
    simp only [receiveAndStuff] at h ⊢
    by_cases h0 : opts.instuff_inpkt = 0
    · simp only [if_pos h0] at h ⊢
      rcases hrv : receiveAndValidate
          (writeNulls buf idx (min st.instuff_start_remain m))
          { st with
            instuff_start_remain :=
              st.instuff_start_remain - min st.instuff_start_remain m,
            nonplugin_pkts :=
              st.nonplugin_pkts + min st.instuff_start_remain m }
          (idx + min st.instuff_start_remain m)
          (m - min st.instuff_start_remain m) with ⟨cnt, b2, s2⟩
      have hacc := receiveAndValidate_plugin_pkts
        (writeNulls buf idx (min st.instuff_start_remain m))
        { st with
          instuff_start_remain :=
            st.instuff_start_remain - min st.instuff_start_remain m,
          nonplugin_pkts :=
            st.nonplugin_pkts + min st.instuff_start_remain m }
        (idx + min st.instuff_start_remain m)
        (m - min st.instuff_start_remain m)
      rw [hrv] at hacc
      simp only [hrv] at h ⊢
      dsimp at h hacc ⊢
      have hcnt : cnt = 0 := by omega
      simp [hcnt]
    · simp only [if_neg h0] at h ⊢
      rcases hloop : stuffLoop opts
          (writeNulls buf idx (min st.instuff_start_remain m))
          { st with
            instuff_start_remain :=
              st.instuff_start_remain - min st.instuff_start_remain m,
            nonplugin_pkts :=
              st.nonplugin_pkts + min st.instuff_start_remain m }
          (idx + min st.instuff_start_remain m)
          (m - min st.instuff_start_remain m)
          (m - min st.instuff_start_remain m + 1) with ⟨d, fi, b2, s2⟩
      have hacc := stuffLoop_plugin_pkts
        (m - min st.instuff_start_remain m + 1) opts
        (writeNulls buf idx (min st.instuff_start_remain m))
        { st with
          instuff_start_remain :=
            st.instuff_start_remain - min st.instuff_start_remain m,
          nonplugin_pkts :=
            st.nonplugin_pkts + min st.instuff_start_remain m }
        (idx + min st.instuff_start_remain m)
        (m - min st.instuff_start_remain m)
      rw [hloop] at hacc
      simp only [hloop] at h ⊢
      dsimp at h hacc ⊢
      have hfi : fi = 0 := by omega
      simp [hfi]
  · constructor
    · decide
    · constructor
      · decide
      · constructor
        · decide
        · constructor
          · decide
          · constructor <;> decide

/-- Witness for C10 at the concrete no-input scenario. -/
theorem c10_zero_without_plugin_packets_witness :
    ((receiveAndStuff opts10 emptyBuf st10 0 32).2.2).plugin_pkts
        = st10.plugin_pkts ∧
    (receiveAndStuff opts10 emptyBuf st10 0 32).1 = 0 :=
  ⟨by decide,
   c10_zero_without_plugin_packets.1 opts10 emptyBuf st10 0 32 (by decide)⟩

/-- The prefix before `firstBad` is all valid, and the packet at
`firstBad` (when inside the list) has no valid sync byte. -/
theorem firstBad_spec (l : List Pkt) :
    (∀ j, j < firstBad l → hasValidSync (l.getD j NullPacket) = true) ∧
    (firstBad l < l.length →
      hasValidSync (l.getD (firstBad l) NullPacket) = false) := by
  induction l with
  | nil =>
    constructor
    · intro j hj
      simp [firstBad] at hj
    · intro h
      simp at h
  | cons p rest ih =>
    by_cases hp : hasValidSync p = true
    · have hfb : firstBad (p :: rest) = firstBad rest + 1 := by
        simp [firstBad, List.findIdx_cons, hp]
      constructor
      · intro j hj
        rw [hfb] at hj
        cases j with
        | zero => simpa using hp
        | succ j2 =>
          rw [List.getD_cons_succ]
          exact ih.1 j2 (by omega)
      · intro h
        rw [hfb] at h ⊢
        rw [List.getD_cons_succ]
        exact ih.2 (by simpa using h)
    · have hfb : firstBad (p :: rest) = 0 := by
        simp [firstBad, List.findIdx_cons, hp]
      constructor
      · intro j hj
        rw [hfb] at hj
        omega
      · intro _
        rw [hfb]
        simpa using hp

/-- C6: sync loss is sticky.  Once `_in_sync_lost` holds, every
`receiveAndValidate` call returns 0 packets without touching the buffer
or the state (so the flag is never cleared); before that, a read
containing an invalid packet returns exactly the number of valid packets
preceding the first invalid one and latches the flag; the prefix counted
is valid and the discarded packet indeed lacks the sync byte. -/
theorem c6_sync_loss_sticky :
    (∀ (buf : Buf) (st : InState) (idx m : Nat), st.in_sync_lost = true →
      receiveAndValidate buf st idx m = (0, buf, st)) ∧
    (∀ (buf : Buf) (st : InState) (idx m : Nat), st.in_sync_lost = false →
      (receiveAndValidate buf st idx m).1 = firstBad (st.stream.take m) ∧
      (firstBad (st.stream.take m) < (st.stream.take m).length →
        ((receiveAndValidate buf st idx m).2.2).in_sync_lost = true)) ∧
    (∀ (l : List Pkt) (j : Nat), j < firstBad l →
      hasValidSync (l.getD j NullPacket) = true) ∧
    (∀ l : List Pkt, firstBad l < l.length →
      hasValidSync (l.getD (firstBad l) NullPacket) = false) := by
  refine ⟨?_, ?_, fun l => (firstBad_spec l).1, fun l => (firstBad_spec l).2⟩
  · intro buf st idx m h
    simp [receiveAndValidate, h]
  · intro buf st idx m h
    constructor
    · simp [receiveAndValidate, h]
    · intro hbad
      rw [List.length_take] at hbad
      simp [receiveAndValidate, h]
      omega

/-- Witness for C6 at concrete states. -/
theorem c6_sync_loss_sticky_witness :
    receiveAndValidate emptyBuf stLost 0 4 = (0, emptyBuf, stLost) ∧
    ((receiveAndValidate emptyBuf stBad 0 4).1
        = firstBad (stBad.stream.take 4) ∧
      (firstBad (stBad.stream.take 4) < (stBad.stream.take 4).length →
        ((receiveAndValidate emptyBuf stBad 0 4).2.2).in_sync_lost
          = true)) ∧
    (0 < firstBad stBad.stream →
      hasValidSync (stBad.stream.getD 0 NullPacket) = true) ∧
    (firstBad stBad.stream < stBad.stream.length →
      hasValidSync (stBad.stream.getD (firstBad stBad.stream) NullPacket)
        = false) :=
  ⟨c6_sync_loss_sticky.1 emptyBuf stLost 0 4 rfl,
   c6_sync_loss_sticky.2.1 emptyBuf stBad 0 4 rfl,
   fun h => c6_sync_loss_sticky.2.2.1 stBad.stream 0 h,
   fun h => c6_sync_loss_sticky.2.2.2 stBad.stream h⟩

/-- C7: once `_use_dts_analyzer` has been set, a `getBitrate` call with
no declared and no plugin-provided bitrate returns the DTS estimate even
when the PCR estimate is valid, and no call ever clears the flag. -/
theorem c7_getBitrate_dts_sticky :
    (∀ (opts : InOpts) (pluginRate pcr188 dts188 : Nat)
        (pcr_valid dts_valid : Bool),
      opts.bitrate = 0 → pluginRate = 0 →
      getBitrate opts pluginRate pcr_valid pcr188 dts_valid dts188 true
        = (dts188, true)) ∧
    (∀ (opts : InOpts) (pluginRate pcr188 dts188 : Nat)
        (pcr_valid dts_valid : Bool),
      (getBitrate opts pluginRate pcr_valid pcr188 dts_valid dts188
        true).2 = true) := by
  constructor
  · intro opts pluginRate pcr188 dts188 pcr_valid dts_valid h1 h2
    simp [getBitrate, h1, h2]
  · intro opts pluginRate pcr188 dts188 pcr_valid dts_valid
    by_cases hb : (if 0 < opts.bitrate then opts.bitrate
        else pluginRate) ≠ 0 <;>
      by_cases hi : opts.instuff_inpkt = 0 <;>
      simp [getBitrate, hb, hi]

/-- Witness for C7: PCR estimation is valid and yet the DTS estimate is
returned, the flag staying set. -/
theorem c7_getBitrate_dts_sticky_witness :
    getBitrate { opts5 with bitrate := 0 } 0 true 777 false 555 true
      = (555, true) ∧
    (getBitrate { opts5 with bitrate := 0 } 0 true 777 false 555 true).2
      = true :=
  ⟨c7_getBitrate_dts_sticky.1 { opts5 with bitrate := 0 } 0 777 555 true
      false rfl rfl,
   c7_getBitrate_dts_sticky.2 { opts5 with bitrate := 0 } 0 777 555 true
      false⟩

/-- C8: if a pending restart carries new arguments `B` and starting with
`B` fails at any of analyze / getOptions / start, the stage re-analyzes
and restarts with the saved previous arguments `A` (here a working set),
a warning — not an error — is recorded on the request's sink, and, for
every pending request whatever the outcome, the completion flag is set
and the waiter is signalled exactly once. -/
theorem c8_restart_fallback :
    (∀ (pb : PluginBehavior) (A : List String) (rd : RestartData),
      rd.same_args = false → rd.msgs = [] →
      (tryStart pb A rd.args).1 = false →
      pb.analyze_ok A = true → pb.getOptions_ok A = true →
      pb.start_ok A = true →
      processPendingRestart pb A { restart := true, restart_data := some rd }
        = (true, A,
           some { rd with
                    completed := true
                    signals := rd.signals + 1
                    msgs := [MsgLevel.verbose, MsgLevel.warning] },
           { restart := false, restart_data := none })) ∧
    (∀ (pb : PluginBehavior) (cur : List String) (rd : RestartData),
      ∃ rd2, (processPendingRestart pb cur
          { restart := true, restart_data := some rd }).2.2.1 = some rd2 ∧
        rd2.completed = true ∧ rd2.signals = rd.signals + 1) := by
  constructor
  · intro pb A rd hsame hmsgs hBfail hA1 hA2 hA3
    rcases htry : tryStart pb A rd.args with ⟨s1, cur1⟩
    rw [htry] at hBfail
    simp at hBfail
    subst hBfail
    have htry2 : tryStart pb cur1 A = (true, A) := by
      simp [tryStart, hA1, hA2, hA3]
    simp [processPendingRestart, hsame, hmsgs, htry, htry2]
  · intro pb cur rd
    by_cases hsame : rd.same_args
    · have hres : (processPendingRestart pb cur
          { restart := true, restart_data := some rd }).2.2.1
          = some { rd with
                     msgs := rd.msgs ++ [MsgLevel.verbose]
                     completed := true
                     signals := rd.signals + 1 } := by
        simp [processPendingRestart, hsame]
      exact ⟨_, hres, rfl, rfl⟩
    · rcases htry : tryStart pb cur rd.args with ⟨s1, cur1⟩
      cases s1
      · rcases htry2 : tryStart pb cur1 cur with ⟨s2, cur2⟩
        have hres : (processPendingRestart pb cur
            { restart := true, restart_data := some rd }).2.2.1
            = some { rd with
                       msgs := rd.msgs ++ [MsgLevel.verbose]
                         ++ [MsgLevel.warning]
                       completed := true
                       signals := rd.signals + 1 } := by
          simp [processPendingRestart, hsame, htry, htry2]
        exact ⟨_, hres, rfl, rfl⟩
      · have hres : (processPendingRestart pb cur
            { restart := true, restart_data := some rd }).2.2.1
            = some { rd with
                       msgs := rd.msgs ++ [MsgLevel.verbose]
                       completed := true
                       signals := rd.signals + 1 } := by
          simp [processPendingRestart, hsame, htry]
        exact ⟨_, hres, rfl, rfl⟩

/-- Witness for C8 at a concrete behavior and request. -/
theorem c8_restart_fallback_witness :
    processPendingRestart pbW ["A"]
        { restart := true, restart_data := some rdW }
      = (true, ["A"],
         some { rdW with
                  completed := true
                  signals := rdW.signals + 1
                  msgs := [MsgLevel.verbose, MsgLevel.warning] },
         { restart := false, restart_data := none }) ∧
    (∃ rd2, (processPendingRestart pbW ["A"]
        { restart := true, restart_data := some rdW }).2.2.1 = some rd2 ∧
      rd2.completed = true ∧ rd2.signals = rdW.signals + 1) :=
  ⟨c8_restart_fallback.1 pbW ["A"] rdW rfl rfl (by decide) rfl rfl
      (by decide),
   c8_restart_fallback.2 pbW ["A"] rdW⟩

/-- C4: on the ring-closure edge from the output stage back to the input
stage only the abort signal can matter, and only when the output itself
aborts: (a) a `passPackets` by the output stage with `aborted = false`
changes no stage's aborting flag, even when the input stage is aborting
(no abort pick-up across the closure edge); (b) with `aborted = true`
exactly the output's own flag is raised — the input stage's flag is
never set by the output's call; (c) the output stage's `waitWork` always
reports `aborted = false`, whatever the input stage's flag; (d) an input
main-loop iteration is a function of only the `pkt_first`, `pkt_cnt`,
`aborted` and `timeout` outputs of `waitWork` — the `bitrate` and
`input_end` values forwarded over the closure edge and returned by
`waitWork` are never observed as data. -/
theorem c4_ring_closure_abort_only :
    (∀ (n cap : Nat) (s : Fin (n + 1 + 1) → Stage) (c b : Nat) (ie : Bool)
        (j : Fin (n + 1 + 1)),
      ((passPackets cap s (Fin.last (n + 1)) c b ie false).1 j).tsp_aborting
        = (s j).tsp_aborting) ∧
    (∀ (n cap : Nat) (s : Fin (n + 1 + 1) → Stage) (c b : Nat) (ie : Bool)
        (j : Fin (n + 1 + 1)),
      ((passPackets cap s (Fin.last (n + 1)) c b ie true).1 j).tsp_aborting
        = ((s j).tsp_aborting || decide (j = Fin.last (n + 1)))) ∧
    (∀ (n cap : Nat) (s : Fin (n + 1 + 1) → Stage) (t : Bool),
      (waitWork cap s (Fin.last (n + 1)) t).aborted = false) ∧
    (∀ (opts : InOpts) (buf : Buf) (st : InState) (ml : MainLocals)
        (pf pc b1 b2 : Nat) (ie1 ie2 ab tm : Bool) (now pr : Nat)
        (pv : Bool) (p188 : Nat) (dv : Bool) (d188 : Nat),
      mainStep opts buf st ml
          { pkt_first := pf, pkt_cnt := pc, bitrate := b1,
            input_end := ie1, aborted := ab, timeout := tm }
          now pr pv p188 dv d188
        = mainStep opts buf st ml
          { pkt_first := pf, pkt_cnt := pc, bitrate := b2,
            input_end := ie2, aborted := ab, timeout := tm }
          now pr pv p188 dv d188) := by
  refine ⟨?_, ?_, ?_, ?_⟩
  · intro n cap s c b ie j
    rw [passPackets_apply (Nat.succ_pos n)]
    by_cases hj : j = Fin.last (n + 1)
    · subst hj
      simp
    · by_cases hj2 : j = Fin.last (n + 1) + 1
      · subst hj2
        simp [hj]
      · have hj0 : j ≠ 0 := by rwa [Fin.last_add_one] at hj2
        simp [hj, hj2, hj0]
  · intro n cap s c b ie j
    rw [passPackets_apply (Nat.succ_pos n)]
    by_cases hj : j = Fin.last (n + 1)
    · subst hj
      simp
    · by_cases hj2 : j = Fin.last (n + 1) + 1
      · subst hj2
        simp [hj]
      · have hj0 : j ≠ 0 := by rwa [Fin.last_add_one] at hj2
        simp [hj, hj2, hj0]
  · intro n cap s t
    simp [waitWork]
  · intro opts buf st ml pf pc b1 b2 ie1 ie2 ab tm now pr pv p188 dv d188
    rfl

end Tsp
